import Mathlib

/-!
Shallow embedding of the usage ledger and rate limiter implemented in
src/src/core/credit_manager.py (class CreditManager).

Modelling conventions:
- Timestamps are rationals (exact real-valued seconds of an injectable,
  monotone clock).  Python float literals that the code compares against
  are embedded as the exact rationals they denote in the source text
  (0.075 = 75/1000, 0.30 = 30/100, 0.9 = 9/10).
- `time.sleep` is modelled by advancing the clock by exactly the slept
  duration; `check_rate_limit` returns the updated state, the clock value
  at the moment it returns, and the list of durations passed to sleep.
- The Python dict `component_usage` is modelled as an association list
  keyed by the component name; `dict[k] += ...` on a present key is an
  in-place update (`updateComp`), and the membership test
  `component in self.component_usage` is reflected by `updateComp`
  leaving the list unchanged when the key is absent.
- `_save_usage` writes a file and never mutates the in-memory ledger; the
  model exposes the fact that a snapshot write was triggered as the
  Boolean second component of `track_usage`.
-/

/-- Per-component counters, the values of the `component_usage` dict:
keys calls, tokens and errors, each starting at 0. -/
structure CompStats where
  calls : Nat
  tokens : Nat
  errors : Nat
  deriving DecidableEq

/-- The mutable state of the CreditManager singleton, as set up by
`CreditManager.__init__` (lines 41-79 of credit_manager.py). -/
structure CreditManager where
  total_requests : Nat
  total_tokens : Nat
  total_input_tokens : Nat
  total_output_tokens : Nat
  rpm_limit : Nat
  tpm_limit : Nat
  call_times : List ℚ
  token_times : List (ℚ × Nat)
  component_usage : List (String × CompStats)
  cost_per_million_input : ℚ
  cost_per_million_output : ℚ
  deriving DecidableEq

/-- The registered component table created in `__init__` (lines 59-65). -/
def initComponents : List (String × CompStats) :=
  [("collector", ⟨0, 0, 0⟩), ("insight_agent", ⟨0, 0, 0⟩), ("optimizer", ⟨0, 0, 0⟩),
   ("analyzer", ⟨0, 0, 0⟩), ("dspy", ⟨0, 0, 0⟩)]

/-- The fresh ledger produced by `CreditManager.__init__`: zero totals,
`rpm_limit = 15`, `tpm_limit = 1_000_000`, empty windows, the five
registered components, and the Gemini rates 0.075 and 0.30 per million. -/
def initManager : CreditManager :=
  { total_requests := 0,
    total_tokens := 0,
    total_input_tokens := 0,
    total_output_tokens := 0,
    rpm_limit := 15,
    tpm_limit := 1000000,
    call_times := [],
    token_times := [],
    component_usage := initComponents,
    cost_per_million_input := 75 / 1000,
    cost_per_million_output := 30 / 100 }

/-- Pruning of the request window: `[t for t in self.call_times if now - t < 60]`
(lines 86, 95 and 155 of credit_manager.py). -/
def pruneCalls (ts : List ℚ) (now : ℚ) : List ℚ :=
  ts.filter (fun t => now - t < 60)

/-- Pruning of the token window:
`[(t, tokens) for t, tokens in self.token_times if now - t < 60]` (line 98). -/
def pruneTokens (tts : List (ℚ × Nat)) (now : ℚ) : List (ℚ × Nat) :=
  tts.filter (fun e => now - e.1 < 60)

/-- `CreditManager.check_rate_limit` (lines 81-107).  Returns the state with
both windows pruned as the code leaves them, the clock value at the moment
the call returns, and the durations passed to `time.sleep` in order.
The RPM branch: if at least `rpm_limit` pruned call times remain, it computes
`wait_time = 60 - (now - self.call_times[0]) + 1` and, when that is positive,
sleeps and re-prunes at the new clock value.  The TPM branch: it prunes the
token window at the (possibly advanced) clock, and if the recent token sum
reaches `tpm_limit * 0.9` it sleeps `60 - (now - oldest) + 1` seconds, where
`oldest` is the minimum retained token timestamp (or `now` when the pruned
token window is empty). -/
def check_rate_limit (m : CreditManager) (now : ℚ) : CreditManager × ℚ × List ℚ :=
  let ct := pruneCalls m.call_times now
  let s1 :=
    if m.rpm_limit ≤ ct.length then
      let wait := 60 - (now - ct.headI) + 1
      if 0 < wait then (pruneCalls ct (now + wait), now + wait, [wait])
      else (ct, now, ([] : List ℚ))
    else (ct, now, ([] : List ℚ))
  let tt := pruneTokens m.token_times s1.2.1
  let recent := (tt.map Prod.snd).sum
  let s2 :=
    if (m.tpm_limit : ℚ) * (9 / 10) ≤ (recent : ℚ) then
      let oldest := ((tt.map Prod.fst).min?).getD s1.2.1
      let wait := 60 - (s1.2.1 - oldest) + 1
      (s1.2.1 + wait, [wait])
    else (s1.2.1, ([] : List ℚ))
  ({ m with call_times := s1.1, token_times := tt }, s2.1, s1.2.2 ++ s2.2)

/-- `CreditManager.track_request_start` (lines 109-113): run the rate-limit
check, then append the current clock value to `call_times`.  Returns the new
state and the clock value at which the call returns. -/
def track_request_start (m : CreditManager) (now : ℚ) : CreditManager × ℚ :=
  let r := check_rate_limit m now
  ({ r.1 with call_times := r.1.call_times ++ [r.2.1] }, r.2.1)

/-- In-place update of a dict entry guarded by a membership test
(`if component in self.component_usage: self.component_usage[component][...] += ...`):
entries whose key matches are transformed, all other entries and the key set
are unchanged; an absent key leaves the table identical. -/
def updateComp (l : List (String × CompStats)) (c : String) (f : CompStats → CompStats) :
    List (String × CompStats) :=
  l.map fun p => if p.1 = c then (p.1, f p.2) else p

/-- `CreditManager.track_usage` (lines 115-141).  On success all four totals
are incremented, a token event of weight `input_tokens + output_tokens` is
appended at the current clock value, and a registered component gets its
`calls` and `tokens` bumped.  On failure only a registered component gets its
`errors` bumped.  The Boolean result records whether the periodic-save check
`self.total_requests % 10 == 0` (line 140) fired, i.e. whether `_save_usage`
was triggered by this call. -/
def track_usage (m : CreditManager) (input_tokens output_tokens : Nat) (component : String)
    (success : Bool) (now : ℚ) : CreditManager × Bool :=
  let m1 :=
    if success then
      { m with
        total_requests := m.total_requests + 1,
        total_tokens := m.total_tokens + (input_tokens + output_tokens),
        total_input_tokens := m.total_input_tokens + input_tokens,
        total_output_tokens := m.total_output_tokens + output_tokens,
        token_times := m.token_times ++ [(now, input_tokens + output_tokens)],
        component_usage := updateComp m.component_usage component fun s =>
          { s with calls := s.calls + 1, tokens := s.tokens + (input_tokens + output_tokens) } }
    else
      { m with
        component_usage := updateComp m.component_usage component fun s =>
          { s with errors := s.errors + 1 } }
  (m1, decide (m1.total_requests % 10 = 0))

/-- The dict returned by `CreditManager.get_usage_stats` (lines 150-156). -/
structure UsageStats where
  total_requests : Nat
  total_tokens : Nat
  estimated_cost : ℚ
  component_breakdown : List (String × CompStats)
  current_rpm : Nat
  deriving DecidableEq

/-- `CreditManager.get_usage_stats` (lines 143-156): cost from the per-million
rates, the internal `component_usage` table placed in the result without any
copying, and `current_rpm` counted from the pruned request window at call
time.  The Python function mutates nothing. -/
def get_usage_stats (m : CreditManager) (now : ℚ) : UsageStats :=
  { total_requests := m.total_requests,
    total_tokens := m.total_tokens,
    estimated_cost := (m.total_input_tokens : ℚ) * m.cost_per_million_input / 1000000
      + (m.total_output_tokens : ℚ) * m.cost_per_million_output / 1000000,
    component_breakdown := m.component_usage,
    current_rpm := (pruneCalls m.call_times now).length }

/-- A finite sequence of successful `track_usage` calls, each given as
(input tokens, output tokens, component, clock value). -/
def recordAll (m : CreditManager) (calls : List (Nat × Nat × String × ℚ)) : CreditManager :=
  calls.foldl (fun acc x => (track_usage acc x.1 x.2.1 x.2.2.1 true x.2.2.2).1) m

/-- A finite sequence of `track_request_start` calls made at the given clock
values. -/
def trackStarts (m : CreditManager) : List ℚ → CreditManager
  | [] => m
  | t :: ts => trackStarts (track_request_start m t).1 ts

/-- Ledger states reachable from the fresh singleton through the public
mutating API (`track_request_start` and `track_usage`; `get_usage_stats`
performs no state change). -/
inductive Reachable : CreditManager → Prop
  | init : Reachable initManager
  | start (m : CreditManager) (now : ℚ) : Reachable m → Reachable (track_request_start m now).1
  | usage (m : CreditManager) (i o : Nat) (c : String) (s : Bool) (now : ℚ) :
      Reachable m → Reachable (track_usage m i o c s now).1

/-- Unfolding of the success branch of `track_usage`. -/
theorem track_usage_true (m : CreditManager) (i o : Nat) (c : String) (now : ℚ) :
    (track_usage m i o c true now).1 =
      { m with
        total_requests := m.total_requests + 1,
        total_tokens := m.total_tokens + (i + o),
        total_input_tokens := m.total_input_tokens + i,
        total_output_tokens := m.total_output_tokens + o,
        token_times := m.token_times ++ [(now, i + o)],
        component_usage := updateComp m.component_usage c fun s =>
          { s with calls := s.calls + 1, tokens := s.tokens + (i + o) } } := rfl

/-- Unfolding of the failure branch of `track_usage`. -/
theorem track_usage_false (m : CreditManager) (i o : Nat) (c : String) (now : ℚ) :
    (track_usage m i o c false now).1 =
      { m with
        component_usage := updateComp m.component_usage c fun s =>
          { s with errors := s.errors + 1 } } := rfl

/-- Dict lookup on the association-list model of `component_usage`: the value
stored under the first entry whose key matches, `none` when the key is absent
(`component in self.component_usage` is `(lookupComp l c).isSome`). -/
def lookupComp : List (String × CompStats) → String → Option CompStats
  | [], _ => none
  | p :: rest, k => if p.1 = k then some p.2 else lookupComp rest k

/-- Lookup in an updated table: the entry for the updated key is transformed,
all other entries are read back unchanged. -/
theorem lookupComp_updateComp (l : List (String × CompStats)) (c k : String)
    (f : CompStats → CompStats) :
    lookupComp (updateComp l c f) k =
      if k = c then (lookupComp l k).map f else lookupComp l k := by
  induction l with
  | nil => simp [updateComp, lookupComp]
  | cons p rest ih =>
    by_cases h1 : p.1 = c
    · by_cases h2 : p.1 = k
      · simp [updateComp, lookupComp, h1, h2, h1 ▸ h2.symm]
      · simp only [updateComp, List.map_cons, if_pos h1, lookupComp, h2, if_neg]
        simpa [updateComp] using ih
    · by_cases h2 : p.1 = k
      · have hkc : ¬ k = c := fun he => h1 (h2.trans he)
        simp [updateComp, lookupComp, h1, h2, hkc]
      · simp only [updateComp, List.map_cons, if_neg h1, lookupComp, h2, if_neg]
        simpa [updateComp] using ih

/-- Updating an absent key leaves the table identical (the Python membership
guard `if component in self.component_usage`). -/
theorem updateComp_eq_of_lookupComp_none (l : List (String × CompStats)) (c : String)
    (f : CompStats → CompStats) (h : lookupComp l c = none) : updateComp l c f = l := by
  induction l with
  | nil => rfl
  | cons p rest ih =>
    simp only [lookupComp] at h
    by_cases hc : p.1 = c
    · simp [hc] at h
    · simp only [if_neg hc] at h
      simp only [updateComp, List.map_cons, if_neg hc]
      have := ih h
      simp only [updateComp] at this
      rw [this]

/-- The token-threshold comparison of line 101, `recent >= tpm_limit * 0.9`,
restated over the integers: `tpm * (9/10) ≤ recent` iff `9 * tpm ≤ 10 * recent`. -/
theorem tpm_cond_iff (tpm recent : Nat) :
    ((tpm : ℚ) * (9 / 10) ≤ (recent : ℚ)) ↔ 9 * tpm ≤ 10 * recent := by
  constructor
  · intro h
    have h2 : ((9 * tpm : Nat) : ℚ) ≤ ((10 * recent : Nat) : ℚ) := by push_cast; linarith
    exact_mod_cast h2
  · intro h
    have h2 : ((9 * tpm : Nat) : ℚ) ≤ ((10 * recent : Nat) : ℚ) := by exact_mod_cast h
    push_cast at h2
    linarith

/-- Fast path of `check_rate_limit`: when the pruned request window is under
the RPM limit and the pruned token sum is under the 0.9 threshold, neither
branch sleeps; both windows are pruned and the clock does not advance. -/
theorem check_rate_limit_fast (m : CreditManager) (now : ℚ)
    (h1 : (pruneCalls m.call_times now).length < m.rpm_limit)
    (h2 : 10 * ((pruneTokens m.token_times now).map Prod.snd).sum < 9 * m.tpm_limit) :
    check_rate_limit m now =
      ({ m with call_times := pruneCalls m.call_times now,
                token_times := pruneTokens m.token_times now }, now, ([] : List ℚ)) := by
  have hc1 : ¬ (m.rpm_limit ≤ (pruneCalls m.call_times now).length) := by omega
  have hc2 : ¬ ((m.tpm_limit : ℚ) * (9 / 10) ≤
      ((((pruneTokens m.token_times now).map Prod.snd).sum : Nat) : ℚ)) := by
    rw [tpm_cond_iff]
    omega
  simp [check_rate_limit, hc1, hc2]
  rw [← List.map_map, ← Nat.cast_list_sum]
  exact lt_of_not_le hc2

/-- Neither branch of `check_rate_limit` touches the totals, the component
table, the limits or the rates; only the two windows are rewritten. -/
theorem check_rate_limit_frame (m : CreditManager) (now : ℚ) :
    (check_rate_limit m now).1.total_requests = m.total_requests ∧
    (check_rate_limit m now).1.total_tokens = m.total_tokens ∧
    (check_rate_limit m now).1.total_input_tokens = m.total_input_tokens ∧
    (check_rate_limit m now).1.total_output_tokens = m.total_output_tokens ∧
    (check_rate_limit m now).1.component_usage = m.component_usage ∧
    (check_rate_limit m now).1.rpm_limit = m.rpm_limit ∧
    (check_rate_limit m now).1.tpm_limit = m.tpm_limit :=
  ⟨rfl, rfl, rfl, rfl, rfl, rfl, rfl⟩

/-- `track_request_start` likewise only touches the windows. -/
theorem track_request_start_frame (m : CreditManager) (now : ℚ) :
    (track_request_start m now).1.total_requests = m.total_requests ∧
    (track_request_start m now).1.total_tokens = m.total_tokens ∧
    (track_request_start m now).1.total_input_tokens = m.total_input_tokens ∧
    (track_request_start m now).1.total_output_tokens = m.total_output_tokens ∧
    (track_request_start m now).1.component_usage = m.component_usage :=
  ⟨rfl, rfl, rfl, rfl, rfl⟩

/-- Pruning a window of zero-timestamp events at clock 0 retains everything. -/
theorem pruneCalls_replicate_zero (k : Nat) :
    pruneCalls (List.replicate k (0 : ℚ)) 0 = List.replicate k (0 : ℚ) := by
  rw [pruneCalls, List.filter_eq_self]
  intro a ha
  have h0 := List.eq_of_mem_replicate ha
  subst h0
  norm_num

/-- The duration slept by the token branch of `check_rate_limit` is always
non-negative: the token window was pruned at `now` immediately before, so the
oldest retained token timestamp is less than 60 seconds old (and when the
pruned window is empty the wait is 61). -/
theorem token_wait_nonneg (tts : List (ℚ × Nat)) (now : ℚ) :
    0 ≤ 60 - (now - (((pruneTokens tts now).map Prod.fst).min?).getD now) + 1 := by
  cases h : ((pruneTokens tts now).map Prod.fst).min? with
  | none =>
    simp [h]
    norm_num
  | some a =>
    have ha : a ∈ (pruneTokens tts now).map Prod.fst :=
      List.min?_mem (fun x y => min_choice x y) h
    obtain ⟨e, he, hfst⟩ := List.mem_map.mp ha
    simp only [pruneTokens, List.mem_filter, decide_eq_true_eq] at he
    simp [h]
    linarith [he.2, hfst ▸ he.2]

/-- Admissions whose clock reads 0 while the ledger is under the RPM limit:
each `track_request_start` takes the fast path and appends one more zero
timestamp to the request window. -/
theorem trackStarts_zeros (n : Nat) : ∀ k : Nat, k + n ≤ 15 →
    trackStarts { initManager with call_times := List.replicate k (0 : ℚ) }
        (List.replicate n (0 : ℚ)) =
      { initManager with call_times := List.replicate (k + n) (0 : ℚ) } := by
  induction n with
  | zero =>
    intro k hk
    simp [trackStarts]
  | succ n ih =>
    intro k hk
    have hfast := check_rate_limit_fast
      { initManager with call_times := List.replicate k (0 : ℚ) } 0
      (by simp [pruneCalls_replicate_zero, initManager]; omega)
      (by simp only [initManager, pruneTokens, List.filter_nil, List.map_nil, List.sum_nil]
          omega)
    have hstep :
        (track_request_start { initManager with call_times := List.replicate k (0 : ℚ) } 0).1 =
          { initManager with call_times := List.replicate (k + 1) (0 : ℚ) } := by
      simp only [track_request_start, hfast]
      simp [pruneCalls_replicate_zero, pruneTokens, initManager, List.replicate_succ']
    rw [List.replicate_succ, trackStarts, hstep]
    have hres := ih (k + 1) (by omega)
    have hkn : k + 1 + n = k + (n + 1) := by omega
    rw [hkn] at hres
    exact hres

/-- Totals after a sequence of successful `track_usage` calls, relative to an
arbitrary starting ledger. -/
theorem recordAll_totals (calls : List (Nat × Nat × String × ℚ)) :
    ∀ m : CreditManager,
      (recordAll m calls).total_input_tokens
          = m.total_input_tokens + (calls.map fun x => x.1).sum ∧
      (recordAll m calls).total_output_tokens
          = m.total_output_tokens + (calls.map fun x => x.2.1).sum ∧
      (recordAll m calls).total_tokens
          = m.total_tokens + (calls.map fun x => x.1 + x.2.1).sum ∧
      (recordAll m calls).total_requests = m.total_requests + calls.length := by
  induction calls with
  | nil =>
    intro m
    simp [recordAll]
  | cons x xs ih =>
    intro m
    obtain ⟨h1, h2, h3, h4⟩ := ih (track_usage m x.1 x.2.1 x.2.2.1 true x.2.2.2).1
    simp only [track_usage_true] at h1 h2 h3 h4
    simp only [recordAll, List.foldl_cons, track_usage_true, List.map_cons, List.sum_cons,
      List.length_cons] at h1 h2 h3 h4 ⊢
    refine ⟨?_, ?_, ?_, ?_⟩ <;> simp only [h1, h2, h3, h4] <;> omega

/-- C1 (accounting additivity): starting from the fresh ledger, after any
finite sequence of successful `track_usage` calls with token pairs
(i_k, o_k), the input total is the sum of the i_k, the output total is the
sum of the o_k, the grand total is the sum of the i_k + o_k, and the request
total is the number of calls. -/
theorem C1_accounting_additivity (calls : List (Nat × Nat × String × ℚ)) :
    (recordAll initManager calls).total_input_tokens = (calls.map fun x => x.1).sum ∧
    (recordAll initManager calls).total_output_tokens = (calls.map fun x => x.2.1).sum ∧
    (recordAll initManager calls).total_tokens = (calls.map fun x => x.1 + x.2.1).sum ∧
    (recordAll initManager calls).total_requests = calls.length := by
  have h := recordAll_totals calls initManager
  simpa [initManager] using h

/-- C2 counterexample: on the fresh ledger a `track_usage` call with
success = False leaves `total_requests` at 0, yet the periodic-save check
`self.total_requests % 10 == 0` fires and `_save_usage` is triggered,
although the call did not make `total_requests` become a multiple of 10 and
the claim says a failed call never triggers a snapshot write. -/
theorem C2_counterexample :
    (track_usage initManager 0 0 ("optimizer") false 0).2 = true ∧
    (track_usage initManager 0 0 ("optimizer") false 0).1.total_requests
      = initManager.total_requests := by
  constructor <;> rfl

/-- C2 (amended): a snapshot write is triggered during a `track_usage` call
exactly when `total_requests % 10 == 0` holds after the call has updated the
totals — for a successful call, when the incremented `total_requests` is a
multiple of 10; for a failed call, when the unchanged `total_requests` is
already a multiple of 10 (as happens on a fresh ledger, where it is 0). -/
theorem C2_snapshot_cadence (m : CreditManager) (i o : Nat) (c : String) (now : ℚ) :
    ((track_usage m i o c true now).1.total_requests = m.total_requests + 1 ∧
      ((track_usage m i o c true now).2 = true ↔ (m.total_requests + 1) % 10 = 0)) ∧
    ((track_usage m i o c false now).1.total_requests = m.total_requests ∧
      ((track_usage m i o c false now).2 = true ↔ m.total_requests % 10 = 0)) := by
  refine ⟨⟨rfl, ?_⟩, ⟨rfl, ?_⟩⟩ <;> simp [track_usage]

/-- C10 (token-total invariant): `total_tokens` equals
`total_input_tokens + total_output_tokens` on the fresh ledger and in every
state reachable through the mutating API; `get_usage_stats` returns a value
without changing the state, so it preserves the invariant trivially. -/
theorem C10_token_total_invariant (m : CreditManager) (h : Reachable m) :
    m.total_tokens = m.total_input_tokens + m.total_output_tokens := by
  induction h with
  | init => rfl
  | start m now _ ih =>
    have hf := track_request_start_frame m now
    rw [hf.2.1, hf.2.2.1, hf.2.2.2.1]
    exact ih
  | usage m i o c s now _ ih =>
    cases s
    · rw [track_usage_false]
      exact ih
    · rw [track_usage_true]
      simp only
      omega

/-- C10 witness: the invariant holds on the fresh ledger. -/
theorem C10_witness :
    initManager.total_tokens = initManager.total_input_tokens + initManager.total_output_tokens :=
  C10_token_total_invariant initManager Reachable.init

/-- C4 counterexample: `get_usage_stats` places the internal
`component_usage` table into the returned dict unchanged — no copy is made
(line 154 stores `self.component_usage` itself in the result) — and a later
successful `track_usage` call changes that very table in place.  Under
Python reference semantics the dict object previously handed out by
`get_usage_stats` is the same object the ledger keeps mutating, so a
previously returned breakdown does not stay unchanged and the returned
stats value is not an immutable point-in-time snapshot. -/
theorem C4_counterexample :
    (get_usage_stats initManager 0).component_breakdown = initManager.component_usage ∧
    (track_usage initManager 100 50 ("collector") true 0).1.component_usage
      ≠ initManager.component_usage :=
  ⟨rfl, by decide⟩

/-- C4 (amended): the `component_breakdown` in the value returned by
`get_usage_stats` is the internal per-component table itself, a live
reference rather than a copy; a subsequent mutation of the ledger (e.g. a
later successful `track_usage` call) is therefore visible through a
previously returned breakdown, as witnessed by the breakdown read after the
mutation differing from the one read before it. -/
theorem C4_breakdown_live_reference :
    (∀ (m : CreditManager) (now : ℚ),
        (get_usage_stats m now).component_breakdown = m.component_usage) ∧
    (get_usage_stats (track_usage initManager 100 50 ("collector") true 0).1 0).component_breakdown
      ≠ (get_usage_stats initManager 0).component_breakdown :=
  ⟨fun _ _ => rfl, by decide⟩

/-- C5 (window pruning): an event with timestamp t that is in a window is
retained by the prune at clock `now` — and hence counted by the pruned
request-event count, the pruned token-weight sum, and the `current_rpm`
reported by `get_usage_stats` — iff `now - t < 60`; every event a prune
retains satisfies `now - t < 60`; and `current_rpm` is exactly the length of
the pruned request window. -/
theorem C5_window_pruning :
    (∀ (ts : List ℚ) (t now : ℚ), t ∈ ts → (t ∈ pruneCalls ts now ↔ now - t < 60)) ∧
    (∀ (tts : List (ℚ × Nat)) (e : ℚ × Nat) (now : ℚ),
        e ∈ tts → (e ∈ pruneTokens tts now ↔ now - e.1 < 60)) ∧
    (∀ (ts : List ℚ) (now t : ℚ), t ∈ pruneCalls ts now → now - t < 60) ∧
    (∀ (tts : List (ℚ × Nat)) (now : ℚ) (e : ℚ × Nat),
        e ∈ pruneTokens tts now → now - e.1 < 60) ∧
    (∀ (m : CreditManager) (now : ℚ),
        (get_usage_stats m now).current_rpm = (pruneCalls m.call_times now).length) := by
  refine ⟨?_, ?_, ?_, ?_, fun m now => rfl⟩ <;>
    intro l a now h <;>
    simp_all [pruneCalls, pruneTokens, List.mem_filter]

/-- C5 witness: a request event 30 seconds old is counted, one 61 seconds
old is not. -/
theorem C5_witness :
    ((0 : ℚ) ∈ pruneCalls [0] 30 ↔ (30 : ℚ) - 0 < 60) ∧
    ((0 : ℚ) ∈ pruneCalls [0] 61 ↔ (61 : ℚ) - 0 < 60) :=
  ⟨C5_window_pruning.1 [0] 0 30 (by simp), C5_window_pruning.1 [0] 0 61 (by simp)⟩

/-- C6 (unregistered component): a successful `track_usage` call naming a
component that is not a key of the component table increments all four
totals and appends a token event exactly as for a registered component, but
creates or modifies no entry of `component_usage` (and, the function being
total, raises nothing). -/
theorem C6_unregistered_component (m : CreditManager) (i o : Nat) (c : String) (now : ℚ)
    (hc : lookupComp m.component_usage c = none) :
    (track_usage m i o c true now).1.total_requests = m.total_requests + 1 ∧
    (track_usage m i o c true now).1.total_input_tokens = m.total_input_tokens + i ∧
    (track_usage m i o c true now).1.total_output_tokens = m.total_output_tokens + o ∧
    (track_usage m i o c true now).1.total_tokens = m.total_tokens + (i + o) ∧
    (track_usage m i o c true now).1.token_times = m.token_times ++ [(now, i + o)] ∧
    (track_usage m i o c true now).1.component_usage = m.component_usage := by
  refine ⟨rfl, rfl, rfl, rfl, rfl, ?_⟩
  have hu := updateComp_eq_of_lookupComp_none m.component_usage c
    (fun s => { s with calls := s.calls + 1, tokens := s.tokens + (i + o) }) hc
  rw [track_usage_true]
  exact hu

/-- C6 witness: the scenario of P6 — recording 10 input and 10 output tokens
under the unknown identifier leaves the component table identical while the
totals move. -/
theorem C6_witness :
    (track_usage initManager 10 10 ("unknown_tag") true 0).1.total_requests
        = initManager.total_requests + 1 ∧
    (track_usage initManager 10 10 ("unknown_tag") true 0).1.component_usage
        = initManager.component_usage :=
  let h := C6_unregistered_component initManager 10 10 ("unknown_tag") 0 (by decide)
  ⟨h.1, h.2.2.2.2.2⟩

/-- C7 (failure-path frame): a `track_usage` call with success = False leaves
every total, both event windows, and every component entry untouched except
that the named component, when registered, has exactly its `errors` counter
incremented; on the fresh ledger, a failed zero-token record against the
optimizer component yields an optimizer error count of 1 with
`total_requests` still 0.  The
periodic-save check that runs afterwards writes a file and never mutates the
in-memory ledger. -/
theorem C7_failure_frame (m : CreditManager) (i o : Nat) (c : String) (now : ℚ) :
    (track_usage m i o c false now).1.total_requests = m.total_requests ∧
    (track_usage m i o c false now).1.total_tokens = m.total_tokens ∧
    (track_usage m i o c false now).1.total_input_tokens = m.total_input_tokens ∧
    (track_usage m i o c false now).1.total_output_tokens = m.total_output_tokens ∧
    (track_usage m i o c false now).1.call_times = m.call_times ∧
    (track_usage m i o c false now).1.token_times = m.token_times ∧
    (∀ k, (lookupComp (track_usage m i o c false now).1.component_usage k).map CompStats.calls
        = (lookupComp m.component_usage k).map CompStats.calls) ∧
    (∀ k, (lookupComp (track_usage m i o c false now).1.component_usage k).map CompStats.tokens
        = (lookupComp m.component_usage k).map CompStats.tokens) ∧
    (∀ k, k ≠ c → lookupComp (track_usage m i o c false now).1.component_usage k
        = lookupComp m.component_usage k) ∧
    (lookupComp (track_usage m i o c false now).1.component_usage c
        = (lookupComp m.component_usage c).map fun s => { s with errors := s.errors + 1 }) ∧
    (lookupComp (track_usage initManager 0 0 ("optimizer") false 0).1.component_usage
        ("optimizer")).map CompStats.errors = some 1 ∧
    (track_usage initManager 0 0 ("optimizer") false 0).1.total_requests = 0 := by
  refine ⟨rfl, rfl, rfl, rfl, rfl, rfl, ?_, ?_, ?_, ?_, by decide, rfl⟩
  · intro k
    rw [track_usage_false]
    simp only [lookupComp_updateComp]
    by_cases hk : k = c
    · rw [if_pos hk, hk]
      cases lookupComp m.component_usage c <;> simp
    · rw [if_neg hk]
  · intro k
    rw [track_usage_false]
    simp only [lookupComp_updateComp]
    by_cases hk : k = c
    · rw [if_pos hk, hk]
      cases lookupComp m.component_usage c <;> simp
    · rw [if_neg hk]
  · intro k hk
    rw [track_usage_false]
    simp only [lookupComp_updateComp]
    rw [if_neg hk]
  · rw [track_usage_false]
    simp only [lookupComp_updateComp]
    simp

/-- C7 witness: a failed `optimizer` call does not disturb the entry of a
different registered component. -/
theorem C7_witness :
    lookupComp (track_usage initManager 5 5 ("optimizer") false 0).1.component_usage
        ("collector")
      = lookupComp initManager.component_usage ("collector") :=
  (C7_failure_frame initManager 5 5 ("optimizer") 0).2.2.2.2.2.2.2.2.1 ("collector") (by decide)

/-- C8 (cost formula): with the configured Gemini rates (0.075 per million
input tokens, 0.30 per million output tokens, exact rationals in the model),
the estimated cost reported by `get_usage_stats` is
`(total_input_tokens * 0.075 + total_output_tokens * 0.30) / 1_000_000`; in
particular one successful record of 1000 input and 500 output tokens on the
fresh ledger is costed at `(1000 * 0.075 + 500 * 0.30) / 1_000_000`. -/
theorem C8_cost_formula :
    (∀ (m : CreditManager) (now : ℚ),
        m.cost_per_million_input = 75 / 1000 →
        m.cost_per_million_output = 30 / 100 →
        (get_usage_stats m now).estimated_cost =
          ((m.total_input_tokens : ℚ) * (75 / 1000)
            + (m.total_output_tokens : ℚ) * (30 / 100)) / 1000000) ∧
    (get_usage_stats (track_usage initManager 1000 500 ("x") true 0).1 0).estimated_cost
      = ((1000 * (75 / 1000) + 500 * (30 / 100)) : ℚ) / 1000000 := by
  constructor
  · intro m now hin hout
    simp only [get_usage_stats, hin, hout]
    ring
  · simp only [get_usage_stats, track_usage_true]
    norm_num [initManager]

/-- C8 witness: the general formula applied to the fresh ledger, whose rates
are the configured ones. -/
theorem C8_witness :
    (get_usage_stats initManager 0).estimated_cost =
      ((initManager.total_input_tokens : ℚ) * (75 / 1000)
        + (initManager.total_output_tokens : ℚ) * (30 / 100)) / 1000000 :=
  C8_cost_formula.1 initManager 0 rfl rfl

/-- C9 (non-negative waits): every duration `check_rate_limit` passes to
`time.sleep` is non-negative — the request-rate branch sleeps only under its
`wait_time > 0` guard, and the token-threshold branch always computes a
wait of at least 1 because the token window was pruned immediately before —
so `time.sleep` can never raise and no exception propagates out of the
admission path. -/
theorem C9_nonneg_sleeps (m : CreditManager) (now : ℚ) :
    ∀ d ∈ (check_rate_limit m now).2.2, 0 ≤ d := by
  intro d hd
  simp only [check_rate_limit] at hd
  by_cases h1 : m.rpm_limit ≤ (pruneCalls m.call_times now).length
  · rw [if_pos h1] at hd
    by_cases h2 : (0 : ℚ) < 60 - (now - (pruneCalls m.call_times now).headI) + 1
    · rw [if_pos h2] at hd
      simp only [List.cons_append, List.nil_append, List.mem_cons] at hd
      rcases hd with rfl | hd
      · linarith
      · split at hd
        · simp only [List.mem_singleton] at hd
          subst hd
          exact token_wait_nonneg m.token_times _
        · simp at hd
    · rw [if_neg h2] at hd
      simp only [List.nil_append] at hd
      split at hd
      · simp only [List.mem_singleton] at hd
        subst hd
        exact token_wait_nonneg m.token_times _
      · simp at hd
  · rw [if_neg h1] at hd
    simp only [List.nil_append] at hd
    split at hd
    · simp only [List.mem_singleton] at hd
      subst hd
      exact token_wait_nonneg m.token_times _
    · simp at hd

/-- Core of the amended admission bound: from any state whose pruned request
window holds at most `rpm_limit` events (with a positive limit), the request
window `check_rate_limit` leaves behind is strictly below the limit — either
the window was already under the limit, or the single sleep expires at least
the oldest retained event. -/
theorem check_rate_limit_under_limit (m : CreditManager) (now : ℚ)
    (hpos : 0 < m.rpm_limit)
    (hinv : (pruneCalls m.call_times now).length ≤ m.rpm_limit) :
    (check_rate_limit m now).1.call_times.length < m.rpm_limit := by
  simp only [check_rate_limit]
  by_cases h1 : m.rpm_limit ≤ (pruneCalls m.call_times now).length
  · rw [if_pos h1]
    have hhead : (pruneCalls m.call_times now).headI ∈ pruneCalls m.call_times now := by
      cases hl : pruneCalls m.call_times now with
      | nil =>
        rw [hl] at h1
        simp at h1
        omega
      | cons a l2 => simp
    have hh60 : now - (pruneCalls m.call_times now).headI < 60 := by
      have hmem := List.of_mem_filter hhead
      simpa [decide_eq_true_eq] using hmem
    have hw : (0 : ℚ) < 60 - (now - (pruneCalls m.call_times now).headI) + 1 := by linarith
    rw [if_pos hw]
    have hfail : ¬ ((now + (60 - (now - (pruneCalls m.call_times now).headI) + 1))
        - (pruneCalls m.call_times now).headI < 60) := by linarith
    have hlt : (pruneCalls (pruneCalls m.call_times now)
          (now + (60 - (now - (pruneCalls m.call_times now).headI) + 1))).length
        < (pruneCalls m.call_times now).length := by
      apply List.length_filter_lt_length_iff_exists.mpr
      exact ⟨_, hhead, by simpa [decide_eq_true_eq] using hfail⟩
    simp only [pruneCalls] at hlt h1 hinv ⊢
    omega
  · rw [if_neg h1]
    simp only [pruneCalls] at h1 ⊢
    omega

/-- A request window no sequence of API calls can produce: twenty retained
events, one at t = 0 and nineteen at t = 30.  Used to show that the
admission bound does not hold for arbitrary ledger states. -/
def overfullState : CreditManager :=
  { initManager with call_times := 0 :: List.replicate 19 (30 : ℚ) }

/-- C3 counterexample: on `overfullState` at clock 30 the single sleep of
`check_rate_limit` expires only the event at t = 0, so when
`track_request_start` returns (at clock 61) the nineteen events at t = 30
are all still younger than 60 seconds: the count just before the append is
19, not strictly below the limit of 15.  The claim as stated quantifies over
every ledger state and is false on this one. -/
theorem C3_counterexample :
    ¬ ((pruneCalls (track_request_start overfullState 30).1.call_times.dropLast
          (track_request_start overfullState 30).2).length < overfullState.rpm_limit) := by
  simp only [track_request_start, List.dropLast_concat]
  norm_num [check_rate_limit, pruneCalls, pruneTokens, overfullState, initManager,
    List.replicate, List.headI]

/-- C3 (amended): for every ledger state whose pruned request window holds at
most `rpm_limit` events — an invariant of every state the public API can
produce, restored after each admission — and whose limit is positive, when
`track_request_start` returns, the number of retained request events younger
than 60 seconds, measured just before the new request event is appended, is
strictly below `rpm_limit`; and concretely, after 15 admissions within one
second on the fresh ledger (rpm = 15), a 16th admission entered at clock 1
does not return before 59 more seconds have elapsed (it waits 60). -/
theorem C3_admission_blocking :
    (∀ (m : CreditManager) (now : ℚ),
        0 < m.rpm_limit →
        (pruneCalls m.call_times now).length ≤ m.rpm_limit →
        (pruneCalls (track_request_start m now).1.call_times.dropLast
            (track_request_start m now).2).length < m.rpm_limit) ∧
    59 ≤ (track_request_start (trackStarts initManager (List.replicate 15 (0 : ℚ))) 1).2 - 1 := by
  constructor
  · intro m now hpos hinv
    have hlt := check_rate_limit_under_limit m now hpos hinv
    simp only [track_request_start, List.dropLast_concat]
    calc (pruneCalls (check_rate_limit m now).1.call_times
            (check_rate_limit m now).2.1).length
        ≤ (check_rate_limit m now).1.call_times.length := List.length_filter_le _ _
      _ < m.rpm_limit := hlt
  · have h15 : trackStarts initManager (List.replicate 15 (0 : ℚ)) =
        { initManager with call_times := List.replicate 15 (0 : ℚ) } :=
      trackStarts_zeros 15 0 (by omega)
    rw [h15]
    simp only [track_request_start]
    norm_num [check_rate_limit, pruneCalls, pruneTokens, initManager, List.replicate,
      List.headI]

/-- C3 witness: on the fresh (empty-window) ledger the amended bound holds at
clock 0. -/
theorem C3_witness :
    (pruneCalls (track_request_start initManager 0).1.call_times.dropLast
        (track_request_start initManager 0).2).length < initManager.rpm_limit :=
  C3_admission_blocking.1 initManager 0 (by norm_num [initManager])
    (by norm_num [initManager, pruneCalls])

/-- C9 witness: a ledger whose request window holds 15 events at t = 0,
admitted again at clock 1, sleeps exactly once for 60 seconds, and that
duration is non-negative. -/
theorem C9_witness : (0 : ℚ) ≤ 60 :=
  C9_nonneg_sleeps { initManager with call_times := List.replicate 15 (0 : ℚ) } 1 60
    (by norm_num [check_rate_limit, pruneCalls, pruneTokens, initManager, List.replicate,
      List.headI])
